import Mathlib

/-!
Verification of the thaw core: the REPORT-line parser (src/thaw/parser.py,
src/thaw/models.py) and the statistics / comparison engine (src/thaw/stats.py).

Modelling conventions:
* Python `str` values are `List Char`; Python `float` values produced by the
  parser are `ℚ` (the parsed decimal literals are exact rationals); the
  statistics engine works over `ℝ` because it takes square roots and
  exponentials.
* Python exceptions (`ValueError` from `float`, `ZeroDivisionError`) are
  `Except Unit` / `Option` failure values.
* `datetime.fromtimestamp(timestamp_ms / 1000, tz=timezone.utc)` is an
  injective re-packaging of the millisecond timestamp, so reports keep the
  raw integer timestamp.
-/

/-! ### Character classes of the regex `REPORT_PATTERN` -/

/-- `\s` for the ASCII whitespace occurring in log lines. -/
def isWSb (c : Char) : Bool := c.isWhitespace

/-- The character class `[\d.]`. -/
def isDD (c : Char) : Bool := c.isDigit || c = '.'

/-- The character class `\d`. -/
def isDigitB (c : Char) : Bool := c.isDigit

/-! ### Literal fragments of `REPORT_PATTERN` -/

def reportLit : List Char := ("REPORT").toList
def requestIdLit : List Char := ("RequestId:").toList
def durationLit : List Char := ("Duration:").toList
def msLit : List Char := ("ms").toList
def billedLit : List Char := ("Billed Duration:").toList
def memSizeLit : List Char := ("Memory Size:").toList
def mbLit : List Char := ("MB").toList
def maxMemLit : List Char := ("Max Memory Used:").toList
def initLit : List Char := ("Init Duration:").toList
def restoreLit : List Char := ("Restore Duration:").toList

/-! ### Regex-component matchers

The pattern is a linear sequence of literals, `\s+`/`\s*` gaps and the
greedy character-class groups `\S+`, `[\d.]+`, `\d+`.  Because every
class group is immediately followed by a literal (or whitespace) that its
own characters can never start, greedy maximal munch is the unique way a
match can succeed, so the matcher needs no backtracking. -/

/-- Match a literal prefix, returning the rest of the input. -/
def matchLit : List Char → List Char → Option (List Char)
  | [], s => some s
  | _ :: _, [] => none
  | c :: cs, x :: xs => if x = c then matchLit cs xs else none

/-- `\s+`: at least one whitespace character, consumed greedily. -/
def wsPlus : List Char → Option (List Char)
  | [] => none
  | c :: t => if isWSb c then some (t.dropWhile isWSb) else none

/-- `\s*`: any whitespace, consumed greedily. -/
def wsStar (s : List Char) : List Char := s.dropWhile isWSb

/-- A greedy one-or-more character-class group, e.g. `([\d.]+)`:
returns the captured text and the rest. -/
def spanClass (p : Char → Bool) (s : List Char) : Option (List Char × List Char) :=
  let cap := s.takeWhile p
  if cap = [] then none else some (cap, s.dropWhile p)

/-- The five mandatory named groups of `REPORT_PATTERN`, as captured text. -/
structure MandGroups where
  request_id : List Char
  duration : List Char
  billed : List Char
  memory_size : List Char
  memory_used : List Char
deriving DecidableEq

/-- The recurring field shape of `REPORT_PATTERN`:
`\s+<label>\s*(<cls>+)\s*<unitLit>`, returning the capture and the rest. -/
def matchField (label unitLit : List Char) (cls : Char → Bool) (s : List Char) :
    Option (List Char × List Char) := do
  let s1 ← wsPlus s
  let s2 ← matchLit label s1
  let (cap, s3) ← spanClass cls (wsStar s2)
  let s4 ← matchLit unitLit (wsStar s3)
  pure (cap, s4)

/-- The mandatory part of `REPORT_PATTERN`, matched at the start of `s0`:
`REPORT\s+RequestId:\s*(\S+)\s+Duration:\s*([\d.]+)\s*ms\s+`
`Billed Duration:\s*(\d+)\s*ms\s+Memory Size:\s*(\d+)\s*MB\s+`
`Max Memory Used:\s*(\d+)\s*MB`.  Returns the groups and the unconsumed
rest of the line. -/
def matchMandatory (s0 : List Char) : Option (MandGroups × List Char) := do
  let s1 ← matchLit reportLit s0
  let s2 ← wsPlus s1
  let s3 ← matchLit requestIdLit s2
  let (rid, s4) ← spanClass (fun c => !isWSb c) (wsStar s3)
  let (dur, s5) ← matchField durationLit msLit isDD s4
  let (bil, s6) ← matchField billedLit msLit isDigitB s5
  let (msz, s7) ← matchField memSizeLit mbLit isDigitB s6
  let (mus, s8) ← matchField maxMemLit mbLit isDigitB s7
  pure (⟨rid, dur, bil, msz, mus⟩, s8)

/-- `re.search` of the mandatory part: try each start position from the
left.  The two optional groups of `REPORT_PATTERN` can never make a match
fail (each is `(?:...)?` and nothing follows them), so the position of the
full-pattern search is decided by the mandatory part alone. -/
def searchMand : List Char → Option (MandGroups × List Char)
  | [] => none
  | s@(_ :: t) =>
    match matchMandatory s with
    | some r => some r
    | none => searchMand t

/-- One optional group `(?:\s+<label>\s*([\d.]+)\s*ms)?`, attempted at the
start of `s`: the capture and the rest on success. -/
def matchOptGroup (label : List Char) (s : List Char) : Option (List Char × List Char) :=
  matchField label msLit isDD s

/-- An optional group consumes its text on success and nothing on failure. -/
def tryOpt (label : List Char) (s : List Char) : Option (List Char) × List Char :=
  match matchOptGroup label s with
  | some (c, r) => (some c, r)
  | none => (none, s)

/-- The two trailing optional groups of `REPORT_PATTERN`, in pattern order:
first `Init Duration`, then `Restore Duration`.  Total: an optional group
that does not match simply captures nothing. -/
def matchOpts (s : List Char) : Option (List Char) × Option (List Char) :=
  let (i, s1) := tryOpt initLit s
  let (r, _) := tryOpt restoreLit s1
  (i, r)

/-! ### Numeric conversion (`float`, `int`) -/

/-- Value of a digit character. -/
def digitVal (c : Char) : ℕ := c.toNat - 48

/-- Python `int` on a captured `\d+` string: always succeeds. -/
def pyIntNat (s : List Char) : ℕ := s.foldl (fun a c => 10 * a + digitVal c) 0

/-- Numerator value of a digit string, as a rational. -/
def digitsValQ (s : List Char) : ℚ := (pyIntNat s : ℚ)

/-- Python `float` on a captured `[\d.]+` string: succeeds iff the string
has at most one `'.'` and at least one digit (`float "1."` and `float ".5"`
are fine, `float "."` and `float "1.2.3"` raise `ValueError`). -/
def pyFloatQ (s : List Char) : Option ℚ :=
  if s = [] then none
  else if s.count '.' = 0 then some (digitsValQ s)
  else if s.count '.' = 1 then
    let intPart := s.takeWhile (fun c => !(c = '.'))
    let fracPart := (s.dropWhile (fun c => !(c = '.'))).tail
    if intPart = [] ∧ fracPart = [] then none
    else some (digitsValQ intPart + digitsValQ fracPart / 10 ^ fracPart.length)
  else none

/-! ### Data model (`models.py`) -/

/-- `InvocationReport` of `models.py`.  `timestamp` keeps the raw
millisecond epoch value handed to the parser. -/
structure InvocationReport where
  request_id : List Char
  timestamp : ℤ
  duration_ms : ℚ
  billed_duration_ms : ℕ
  memory_size_mb : ℕ
  max_memory_used_mb : ℕ
  init_duration_ms : Option ℚ := none
  restore_duration_ms : Option ℚ := none
deriving DecidableEq

/-- `InvocationReport.is_cold_start`: presence of `init_duration_ms`. -/
def InvocationReport.is_cold_start (r : InvocationReport) : Bool :=
  r.init_duration_ms.isSome

/-- `InvocationReport.is_snapstart_restore`: presence of `restore_duration_ms`. -/
def InvocationReport.is_snapstart_restore (r : InvocationReport) : Bool :=
  r.restore_duration_ms.isSome

/-! ### `parser.py` -/

/-- Conversion of an optional captured group:
`float(groups[g]) if groups[g] else None`, where a `ValueError` from
`float` is a conversion failure. -/
def optFloat : Option (List Char) → Option (Option ℚ)
  | none => some none
  | some c => (pyFloatQ c).map some

/-- `parse_report_line`: `.ok none` is "no match" (Python `None`),
`.error ()` is a raised `ValueError` from a numeric conversion. -/
def parse_report_line (message : List Char) (timestamp_ms : ℤ) :
    Except Unit (Option InvocationReport) :=
  match searchMand message with
  | none => .ok none
  | some (g, rest) =>
    let opts := matchOpts rest
    match pyFloatQ g.duration, optFloat opts.1, optFloat opts.2 with
    | some d, some oi, some orr =>
      .ok (some
        { request_id := g.request_id
          timestamp := timestamp_ms
          duration_ms := d
          billed_duration_ms := pyIntNat g.billed
          memory_size_mb := pyIntNat g.memory_size
          max_memory_used_mb := pyIntNat g.memory_used
          init_duration_ms := oi
          restore_duration_ms := orr })
    | _, _, _ => .error ()

/-- `parse_report_lines`: fold over the `(message, timestamp)` events in
order, appending each parsed report and dropping non-matching lines; a
raised conversion error aborts the whole batch. -/
def parse_report_lines : List (List Char × ℤ) → Except Unit (List InvocationReport)
  | [] => .ok []
  | (m, t) :: rest => do
    let r ← parse_report_line m t
    let rs ← parse_report_lines rest
    match r with
    | some rep => .ok (rep :: rs)
    | none => .ok rs

/-- The value of a non-raising `parse_report_line` call. -/
def okReport : Except Unit (Option InvocationReport) → Option InvocationReport
  | .ok r => r
  | .error _ => none

/-! ### `stats.py`: the Distribution Engine -/

/-- Python floats the engine can return: finite values or the signed
infinities produced by `float("inf")` / `float("-inf")`.  `NaN` has no
constructor: the branch analysis below shows the engine never builds one. -/
inductive PyExt where
  | val (x : ℝ)
  | posInf
  | negInf

/-- Python `sorted`: a sorted copy of the list (stable; stability is
invisible for a list of bare numbers). -/
noncomputable def pySorted (l : List ℝ) : List ℝ := l.insertionSort (· ≤ ·)

/-- `statistics.mean`. -/
noncomputable def meanR (l : List ℝ) : ℝ := l.sum / l.length

/-- `statistics.median`: middle element of the sorted data, or the average
of the two middle elements. -/
noncomputable def medianR (l : List ℝ) : ℝ :=
  let s := pySorted l
  let n := s.length
  if n % 2 = 1 then s.getD (n / 2) 0
  else (s.getD (n / 2 - 1) 0 + s.getD (n / 2) 0) / 2

/-- `statistics.stdev`: the sample standard deviation, squared deviations
from the mean divided by `n - 1`, square-rooted. -/
noncomputable def stdevR (l : List ℝ) : ℝ :=
  Real.sqrt ((l.map (fun x => (x - meanR l) ^ 2)).sum / ((l.length : ℝ) - 1))

/-- `calculate_percentile`.  Python's `int(rank)` truncates toward zero,
which is `⌊·⌋₊` for the non-negative ranks produced by the engine's
percentiles 50/90/95/99 (and by any `percentile ≥ 0`). -/
noncomputable def calculate_percentile (sorted_values : List ℝ) (percentile : ℝ) : ℝ :=
  if sorted_values = [] then 0
  else if sorted_values.length = 1 then sorted_values.getD 0 0
  else
    let n := sorted_values.length
    let rank := percentile / 100 * ((n : ℝ) - 1)
    let lower_idx := ⌊rank⌋₊
    let upper_idx := lower_idx + 1
    let fraction := rank - (lower_idx : ℝ)
    if n ≤ upper_idx then sorted_values.getD (n - 1) 0
    else
      sorted_values.getD lower_idx 0 +
        fraction * (sorted_values.getD upper_idx 0 - sorted_values.getD lower_idx 0)

/-- `DistributionStats` of `models.py`. -/
structure DistributionStats where
  count : ℕ
  mean : ℝ
  median : ℝ
  std_dev : ℝ
  min : ℝ
  max : ℝ
  p50 : ℝ
  p90 : ℝ
  p95 : ℝ
  p99 : ℝ

/-- `DistributionStats(0, 0, 0, 0, 0, 0, 0, 0, 0, 0)`, the explicit
zero-valued placeholder used at several call sites. -/
def zeroStats : DistributionStats := ⟨0, 0, 0, 0, 0, 0, 0, 0, 0, 0⟩

/-- The record built by `calculate_distribution_stats` for non-empty input. -/
noncomputable def distStats (values : List ℝ) : DistributionStats :=
  let sorted_values := pySorted values
  let n := sorted_values.length
  { count := n
    mean := meanR sorted_values
    median := medianR sorted_values
    std_dev := if n = 1 then 0 else stdevR sorted_values
    min := sorted_values.getD 0 0
    max := sorted_values.getD (n - 1) 0
    p50 := calculate_percentile sorted_values 50
    p90 := calculate_percentile sorted_values 90
    p95 := calculate_percentile sorted_values 95
    p99 := calculate_percentile sorted_values 99 }

/-- `calculate_distribution_stats`: `None` exactly on empty input. -/
noncomputable def calculate_distribution_stats (values : List ℝ) : Option DistributionStats :=
  if values = [] then none else some (distStats values)

/-! ### `stats.py`: the Effect-Size Engine -/

/-- `calculate_cohens_d`.  `none` is the `ZeroDivisionError` Python raises
when the pooled-variance denominator `n1 + n2 - 2` is the integer zero,
which (both sizes being non-zero past the first branch) happens exactly at
`n1 = n2 = 1`. -/
noncomputable def calculate_cohens_d (mean1 std1 : ℝ) (n1 : ℕ) (mean2 std2 : ℝ) (n2 : ℕ) :
    Option PyExt :=
  if n1 = 0 ∨ n2 = 0 then some (.val 0)
  else if std1 = 0 ∧ std2 = 0 then
    if mean1 = mean2 then some (.val 0)
    else if mean2 > mean1 then some .posInf else some .negInf
  else if (n1 : ℤ) + n2 - 2 = 0 then none
  else
    let pooled_std :=
      Real.sqrt ((((n1 : ℝ) - 1) * std1 ^ 2 + ((n2 : ℝ) - 1) * std2 ^ 2) / ((n1 : ℝ) + n2 - 2))
    if pooled_std = 0 then some (.val 0)
    else some (.val ((mean2 - mean1) / pooled_std))

/-- Modelled from the words of claim C3: the total function the claim says
`calculate_cohens_d` computes, read with the real-number convention
`x / 0 = 0` (so the pooled standard deviation at `n1 = n2 = 1` is
`sqrt (0 / 0) = 0` and the claimed result there is `0`). -/
noncomputable def cohensDClaim (mean1 std1 : ℝ) (n1 : ℕ) (mean2 std2 : ℝ) (n2 : ℕ) : PyExt :=
  if n1 = 0 ∨ n2 = 0 then .val 0
  else if std1 = 0 ∧ std2 = 0 then
    if mean1 = mean2 then .val 0
    else if mean2 > mean1 then .posInf else .negInf
  else
    let pooled_std :=
      Real.sqrt ((((n1 : ℝ) - 1) * std1 ^ 2 + ((n2 : ℝ) - 1) * std2 ^ 2) / ((n1 : ℝ) + n2 - 2))
    if pooled_std = 0 then .val 0
    else .val ((mean2 - mean1) / pooled_std)

/-- `calculate_overlap_percent`. -/
noncomputable def calculate_overlap_percent (mean1 std1 mean2 std2 : ℝ) : ℝ :=
  if std1 = 0 ∧ std2 = 0 then if mean1 = mean2 then 100 else 0
  else if std1 = 0 ∨ std2 = 0 then 50
  else
    let combined_std := Real.sqrt ((std1 ^ 2 + std2 ^ 2) / 2)
    if combined_std = 0 then 100
    else
      let z := |mean1 - mean2| / combined_std
      let phi := 1 / (1 + Real.exp (1.7 * z / 2))
      min 100 (max 0 (2 * phi * 100))

/-! ### `stats.py`: the Aggregation Layer -/

/-- `Comparison` of `models.py` (the derived labels are not needed by the
claims). -/
structure Comparison where
  before : DistributionStats
  after : DistributionStats
  cohens_d : PyExt
  overlap_percent : ℝ

/-- The neutral placeholder `Comparison(empty_stats, empty_stats, 0.0, 100.0)`. -/
noncomputable def empty_comparison : Comparison := ⟨zeroStats, zeroStats, .val 0, 100⟩

/-- `compare_distributions`: `.ok none` when either side has no data,
`.error ()` if the Cohen's-d computation raises. -/
noncomputable def compare_distributions (before_values after_values : List ℝ) :
    Except Unit (Option Comparison) :=
  match calculate_distribution_stats before_values, calculate_distribution_stats after_values with
  | none, _ => .ok none
  | _, none => .ok none
  | some bs, some as_ =>
    match calculate_cohens_d bs.mean bs.std_dev bs.count as_.mean as_.std_dev as_.count with
    | none => .error ()
    | some d =>
      .ok (some ⟨bs, as_,
        d, calculate_overlap_percent bs.mean bs.std_dev as_.mean as_.std_dev⟩)

/-- The `float(...)` views of a report's metrics used by the aggregation
layer. -/
noncomputable def durationsOf (reports : List InvocationReport) : List ℝ :=
  reports.map (fun r => (r.duration_ms : ℝ))

noncomputable def billedOf (reports : List InvocationReport) : List ℝ :=
  reports.map (fun r => ((r.billed_duration_ms : ℕ) : ℝ))

noncomputable def memoryOf (reports : List InvocationReport) : List ℝ :=
  reports.map (fun r => ((r.max_memory_used_mb : ℕ) : ℝ))

/-- `AnalysisResult` of `models.py`. -/
structure AnalysisResult where
  function_name : List Char
  start_time : ℤ
  end_time : ℤ
  invocations : List InvocationReport
  duration_stats : DistributionStats
  billed_duration_stats : DistributionStats
  memory_used_stats : DistributionStats
  cold_start_count : ℕ
  cold_start_rate : ℝ
  cold_start_duration_stats : Option DistributionStats
  snapstart_restore_count : ℕ
  snapstart_restore_rate : ℝ
  snapstart_restore_duration_stats : Option DistributionStats

/-- `analyze_reports`.  The cold-start (resp. restore) duration list reads
`init_duration_ms` (resp. `restore_duration_ms`) of the filtered reports;
the filter guarantees the option is present, so `getD 0` never takes its
default. -/
noncomputable def analyze_reports (function_name : List Char) (reports : List InvocationReport)
    (start_time end_time : ℤ) : AnalysisResult :=
  let cold_starts := reports.filter (fun r => r.is_cold_start)
  let cold_start_durations := cold_starts.map (fun r => ((r.init_duration_ms.getD 0 : ℚ) : ℝ))
  let snapstart_restores := reports.filter (fun r => r.is_snapstart_restore)
  let snapstart_durations :=
    snapstart_restores.map (fun r => ((r.restore_duration_ms.getD 0 : ℚ) : ℝ))
  let total_count := reports.length
  { function_name := function_name
    start_time := start_time
    end_time := end_time
    invocations := reports
    duration_stats := (calculate_distribution_stats (durationsOf reports)).getD zeroStats
    billed_duration_stats := (calculate_distribution_stats (billedOf reports)).getD zeroStats
    memory_used_stats := (calculate_distribution_stats (memoryOf reports)).getD zeroStats
    cold_start_count := cold_starts.length
    cold_start_rate := if 0 < total_count then (cold_starts.length : ℝ) / total_count else 0
    cold_start_duration_stats := calculate_distribution_stats cold_start_durations
    snapstart_restore_count := snapstart_restores.length
    snapstart_restore_rate :=
      if 0 < total_count then (snapstart_restores.length : ℝ) / total_count else 0
    snapstart_restore_duration_stats := calculate_distribution_stats snapstart_durations }

/-- `ComparisonResult` of `models.py`. -/
structure ComparisonResult where
  function_name : List Char
  pivot_time : ℤ
  before_start : ℤ
  after_end : ℤ
  before_count : ℕ
  after_count : ℕ
  duration : Comparison
  billed_duration : Comparison
  memory_used : Comparison
  cold_start_rate_before : ℝ
  cold_start_rate_after : ℝ

/-- `compare_reports`: the three metric comparisons fall back to
`empty_comparison` when `compare_distributions` returns `None`. -/
noncomputable def compare_reports (function_name : List Char)
    (before_reports after_reports : List InvocationReport)
    (pivot_time before_start after_end : ℤ) : Except Unit ComparisonResult := do
  let before_cold := (before_reports.filter (fun r => r.is_cold_start)).length
  let after_cold := (after_reports.filter (fun r => r.is_cold_start)).length
  let duration_comparison ←
    compare_distributions (durationsOf before_reports) (durationsOf after_reports)
  let billed_comparison ←
    compare_distributions (billedOf before_reports) (billedOf after_reports)
  let memory_comparison ←
    compare_distributions (memoryOf before_reports) (memoryOf after_reports)
  .ok
    { function_name := function_name
      pivot_time := pivot_time
      before_start := before_start
      after_end := after_end
      before_count := before_reports.length
      after_count := after_reports.length
      duration := duration_comparison.getD empty_comparison
      billed_duration := billed_comparison.getD empty_comparison
      memory_used := memory_comparison.getD empty_comparison
      cold_start_rate_before :=
        if before_reports ≠ [] then (before_cold : ℝ) / before_reports.length else 0
      cold_start_rate_after :=
        if after_reports ≠ [] then (after_cold : ℝ) / after_reports.length else 0 }

/-- Modelled from the words of claims C1 and the spec's percentile rule:
with the list sorted ascending, `r = (p/100) * (count - 1)`, `lo = ⌊r⌋`,
`hi = lo + 1`, `frac = r - lo`; the result is `value[count-1]` when
`hi ≥ count`, else `value[lo] + frac * (value[hi] - value[lo])`; a
one-element list returns its element regardless of `p`. -/
noncomputable def percentileSpec (sorted_values : List ℝ) (p : ℝ) : ℝ :=
  let n := sorted_values.length
  if n = 1 then sorted_values.getD 0 0
  else
    let r := p / 100 * ((n : ℝ) - 1)
    let lo := ⌊r⌋
    let frac := r - (lo : ℝ)
    if (n : ℤ) ≤ lo + 1 then sorted_values.getD (n - 1) 0
    else
      sorted_values.getD lo.toNat 0 +
        frac * (sorted_values.getD (lo.toNat + 1) 0 - sorted_values.getD lo.toNat 0)

/-- Modelled from the words of claim C2: the sample standard deviation with
Bessel's correction — squared deviations from the mean, divided by
`count - 1`, square-rooted. -/
noncomputable def sampleStdDevSpec (values : List ℝ) : ℝ :=
  Real.sqrt
    ((values.map (fun x => (x - values.sum / values.length) ^ 2)).sum / ((values.length : ℝ) - 1))

/-! ### Concrete lines and report constructors used in the theorems -/
deriving instance DecidableEq for Except

/-- A fixed line matching the mandatory part of the pattern exactly. -/
def mandLine : List Char :=
  ("REPORT RequestId: abc-123 Duration: 45.67 ms Billed Duration: 46 ms Memory Size: 512 MB Max Memory Used: 128 MB").toList

/-- The text of an `Init Duration` field with value text `a`. -/
def initSegOf (a : List Char) : List Char := [' '] ++ initLit ++ [' '] ++ a ++ [' '] ++ msLit

/-- The text of a `Restore Duration` field with value text `b`. -/
def restoreSegOf (b : List Char) : List Char := [' '] ++ restoreLit ++ [' '] ++ b ++ [' '] ++ msLit

/-- A line that matches the pattern but whose duration text `1.2.3` cannot
be converted by `float`. -/
def badDurationLine : List Char :=
  ("REPORT RequestId: x Duration: 1.2.3 ms Billed Duration: 1 ms Memory Size: 1 MB Max Memory Used: 1 MB").toList

/-- An interleaved log line with no report marker. -/
def noMatchLine : List Char := ("START RequestId: abc-123 Version: 1").toList

/-- The report built from mandatory groups plus already-converted optional
fields. -/
def mkReport (g : MandGroups) (ts : ℤ) (d : ℚ) (oi orr : Option ℚ) : InvocationReport :=
  { request_id := g.request_id
    timestamp := ts
    duration_ms := d
    billed_duration_ms := pyIntNat g.billed
    memory_size_mb := pyIntNat g.memory_size
    max_memory_used_mb := pyIntNat g.memory_used
    init_duration_ms := oi
    restore_duration_ms := orr }


/-! ### Theorems -/

theorem matchLit_append (l r : List Char) : matchLit l (l ++ r) = some r := by
  induction l with
  | nil => rfl
  | cons c cs ih => simp [matchLit, ih]

theorem takeWhile_append_all {p : Char → Bool} {a : List Char}
    (h : ∀ c ∈ a, p c = true) (r : List Char) :
    (a ++ r).takeWhile p = a ++ r.takeWhile p := by
  induction a with
  | nil => simp
  | cons c t ih =>
    have hc : p c = true := h c (by simp)
    simp only [List.cons_append, List.takeWhile_cons, hc, if_true]
    rw [ih (fun d hd => h d (by simp [hd]))]

theorem dropWhile_append_all {p : Char → Bool} {a : List Char}
    (h : ∀ c ∈ a, p c = true) (r : List Char) :
    (a ++ r).dropWhile p = r.dropWhile p := by
  induction a with
  | nil => simp
  | cons c t ih =>
    have hc : p c = true := h c (by simp)
    simp only [List.cons_append, List.dropWhile_cons, hc, if_true]
    exact ih (fun d hd => h d (by simp [hd]))

theorem dropWhile_eq_self {p : Char → Bool} {r : List Char}
    (hr : r.takeWhile p = []) : r.dropWhile p = r := by
  cases r with
  | nil => rfl
  | cons c t =>
    rw [List.takeWhile_cons] at hr
    by_cases hc : p c = true
    · simp [hc] at hr
    · simp only [Bool.not_eq_true] at hc
      simp [List.dropWhile_cons, hc]

theorem spanClass_exact {p : Char → Bool} {a r : List Char} (ha : a ≠ [])
    (hall : ∀ c ∈ a, p c = true) (hr : r.takeWhile p = []) :
    spanClass p (a ++ r) = some (a, r) := by
  unfold spanClass
  rw [takeWhile_append_all hall, dropWhile_append_all hall, hr, dropWhile_eq_self hr,
    List.append_nil]
  simp [ha]

theorem isDD_not_ws {c : Char} (h : isDD c = true) : isWSb c = false := by
  cases hw : isWSb c with
  | false => rfl
  | true =>
    simp only [isWSb, Char.isWhitespace, Bool.or_eq_true, decide_eq_true_eq] at hw
    rcases hw with ((rfl | rfl) | rfl) | rfl <;> simp [isDD] at h

theorem takeWhile_nil_head {p : Char → Bool} {c : Char} (hc : p c = false) (t : List Char) :
    (c :: t).takeWhile p = [] := by
  simp [List.takeWhile_cons, hc]

theorem wsPlus_cons_space {r : List Char} (hr : r.takeWhile isWSb = []) :
    wsPlus (' ' :: r) = some r := by
  have h : isWSb ' ' = true := by decide
  simp [wsPlus, h, dropWhile_eq_self hr]

theorem wsStar_cons_space {r : List Char} (hr : r.takeWhile isWSb = []) :
    wsStar (' ' :: r) = r := by
  have h : isWSb ' ' = true := by decide
  simp [wsStar, List.dropWhile_cons, h, dropWhile_eq_self hr]

/-- A well-formed field segment `" <label> <digits> ms"` is consumed exactly
by `matchField`, whatever follows it. -/
theorem matchField_seg {label : List Char} {c0 : Char} {lab' : List Char}
    (hlab : label = c0 :: lab') (hc0 : isWSb c0 = false)
    {a : List Char} (ha : a ≠ []) (hall : ∀ c ∈ a, isDD c = true) (tail : List Char) :
    matchField label msLit isDD ([' '] ++ label ++ [' '] ++ a ++ [' '] ++ msLit ++ tail)
      = some (a, tail) := by
  have e : [' '] ++ label ++ [' '] ++ a ++ [' '] ++ msLit ++ tail
      = ' ' :: (label ++ ' ' :: (a ++ ' ' :: (msLit ++ tail))) := by
    simp [List.append_assoc]
  have h1 : (label ++ ' ' :: (a ++ ' ' :: (msLit ++ tail))).takeWhile isWSb = [] := by
    rw [hlab, List.cons_append]
    exact takeWhile_nil_head hc0 _
  have haws : (a ++ ' ' :: (msLit ++ tail)).takeWhile isWSb = [] := by
    cases a with
    | nil => exact absurd rfl ha
    | cons c t =>
      rw [List.cons_append]
      exact takeWhile_nil_head (isDD_not_ws (hall c (by simp))) _
  have hspace : (' ' :: (msLit ++ tail)).takeWhile isDD = [] :=
    takeWhile_nil_head (by decide) _
  have hms : (msLit ++ tail).takeWhile isWSb = [] := by
    rw [show msLit = 'm' :: ("s").toList from rfl, List.cons_append]
    exact takeWhile_nil_head (by decide) _
  rw [e]
  unfold matchField
  simp only [Option.bind_eq_bind, wsPlus_cons_space h1, Option.some_bind, matchLit_append,
    wsStar_cons_space haws, spanClass_exact ha hall hspace, wsStar_cons_space hms,
    Option.pure_def]

/-- An optional group whose label starts with the wrong character fails. -/
theorem matchField_fail_head {label : List Char} {c0 d0 : Char} {lab' rest : List Char}
    (hlab : label = c0 :: lab') (hd0 : isWSb d0 = false) (hne : d0 ≠ c0) :
    matchField label msLit isDD (' ' :: (d0 :: rest)) = none := by
  unfold matchField
  simp only [Option.bind_eq_bind, wsPlus_cons_space (takeWhile_nil_head hd0 _),
    Option.some_bind, hlab]
  simp [matchLit, hne, Option.none_bind]

theorem matchField_nil (label : List Char) : matchField label msLit isDD [] = none := rfl

theorem matchField_fail_label {label other : List Char} {c0 d0 : Char} {lab' oth' : List Char}
    (hlab : label = c0 :: lab') (hoth : other = d0 :: oth') (hd0 : isWSb d0 = false)
    (hne : d0 ≠ c0) (x : List Char) :
    matchField label msLit isDD (' ' :: (other ++ x)) = none := by
  subst hoth
  rw [List.cons_append]
  exact matchField_fail_head hlab hd0 hne

theorem matchOptGroup_initSeg {a : List Char} (ha : a ≠ [])
    (hall : ∀ c ∈ a, isDD c = true) (tail : List Char) :
    matchOptGroup initLit (initSegOf a ++ tail) = some (a, tail) := by
  have e : initSegOf a ++ tail = [' '] ++ initLit ++ [' '] ++ a ++ [' '] ++ msLit ++ tail := by
    simp [initSegOf, List.append_assoc]
  rw [matchOptGroup, e]
  exact matchField_seg (show initLit = 'I' :: ("nit Duration:").toList from rfl)
    (by decide) ha hall tail

theorem matchOptGroup_restoreSeg {b : List Char} (hb : b ≠ [])
    (hball : ∀ c ∈ b, isDD c = true) (tail : List Char) :
    matchOptGroup restoreLit (restoreSegOf b ++ tail) = some (b, tail) := by
  have e : restoreSegOf b ++ tail = [' '] ++ restoreLit ++ [' '] ++ b ++ [' '] ++ msLit ++ tail := by
    simp [restoreSegOf, List.append_assoc]
  rw [matchOptGroup, e]
  exact matchField_seg (show restoreLit = 'R' :: ("estore Duration:").toList from rfl)
    (by decide) hb hball tail

theorem matchOptGroup_init_on_restoreSeg (b x : List Char) :
    matchOptGroup initLit (restoreSegOf b ++ x) = none := by
  have e : restoreSegOf b ++ x = ' ' :: (restoreLit ++ ([' '] ++ b ++ [' '] ++ msLit ++ x)) := by
    simp [restoreSegOf, List.append_assoc]
  rw [matchOptGroup, e]
  exact matchField_fail_label (show initLit = 'I' :: ("nit Duration:").toList from rfl)
    (show restoreLit = 'R' :: ("estore Duration:").toList from rfl) (by decide) (by decide) _

theorem matchOptGroup_nil (label : List Char) : matchOptGroup label [] = none := rfl

theorem matchOpts_initSeg {a : List Char} (ha : a ≠ []) (hall : ∀ c ∈ a, isDD c = true) :
    matchOpts (initSegOf a) = (some a, none) := by
  have h1 : matchOptGroup initLit (initSegOf a) = some (a, []) := by
    have h := matchOptGroup_initSeg ha hall []
    rwa [List.append_nil] at h
  simp [matchOpts, tryOpt, h1, matchOptGroup_nil]

theorem matchOpts_restoreSeg {b : List Char} (hb : b ≠ []) (hball : ∀ c ∈ b, isDD c = true) :
    matchOpts (restoreSegOf b) = (none, some b) := by
  have h1 : matchOptGroup initLit (restoreSegOf b) = none := by
    have h := matchOptGroup_init_on_restoreSeg b []
    rwa [List.append_nil] at h
  have h2 : matchOptGroup restoreLit (restoreSegOf b) = some (b, []) := by
    have h := matchOptGroup_restoreSeg hb hball []
    rwa [List.append_nil] at h
  simp [matchOpts, tryOpt, h1, h2]

theorem matchOpts_initRestore {a b : List Char} (ha : a ≠ []) (hall : ∀ c ∈ a, isDD c = true)
    (hb : b ≠ []) (hball : ∀ c ∈ b, isDD c = true) :
    matchOpts (initSegOf a ++ restoreSegOf b) = (some a, some b) := by
  have h1 := matchOptGroup_initSeg ha hall (restoreSegOf b)
  have h2 : matchOptGroup restoreLit (restoreSegOf b) = some (b, []) := by
    have h := matchOptGroup_restoreSeg hb hball []
    rwa [List.append_nil] at h
  simp [matchOpts, tryOpt, h1, h2]

theorem matchOpts_restoreInit {a b : List Char} (hb : b ≠ []) (hball : ∀ c ∈ b, isDD c = true) :
    matchOpts (restoreSegOf b ++ initSegOf a) = (none, some b) := by
  have h1 := matchOptGroup_init_on_restoreSeg b (initSegOf a)
  have h2 := matchOptGroup_restoreSeg hb hball (initSegOf a)
  simp [matchOpts, tryOpt, h1, h2]

/-- C5 (amended), core parsing step. -/
theorem parse_line_config (s : List Char) (ts : ℤ) (g : MandGroups)
    (rest : List Char) (oi orr : Option (List Char)) (d : ℚ) (oid orrd : Option ℚ)
    (hs : searchMand s = some (g, rest)) (hopts : matchOpts rest = (oi, orr))
    (hd : pyFloatQ g.duration = some d)
    (hoi : optFloat oi = some oid) (horr : optFloat orr = some orrd) :
    parse_report_line s ts = .ok (some (mkReport g ts d oid orrd)) := by
  simp only [parse_report_line, hs, hopts, hd, hoi, horr, mkReport]

theorem optFloat_eq_none {o : Option (List Char)} :
    optFloat o = none ↔ ∃ c, o = some c ∧ pyFloatQ c = none := by
  cases o with
  | none => simp [optFloat]
  | some c => simp [optFloat]

/-- C5 (amended): a line whose mandatory part matches and is followed by an
`Init Duration` field, a `Restore Duration` field, or both in that order,
parses to a report carrying exactly the present values; with the two
fields in the order restore-then-init, only the restore value is captured
and `init_duration_ms` is absent. -/
theorem parser_optional_field_configurations
    (s : List Char) (ts : ℤ) (g : MandGroups) (a b : List Char) (d va vb : ℚ)
    (ha : a ≠ []) (hall : ∀ c ∈ a, isDD c = true)
    (hb : b ≠ []) (hball : ∀ c ∈ b, isDD c = true)
    (hd : pyFloatQ g.duration = some d)
    (hfa : pyFloatQ a = some va) (hfb : pyFloatQ b = some vb) :
    (searchMand s = some (g, initSegOf a) →
      parse_report_line s ts = .ok (some (mkReport g ts d (some va) none))) ∧
    (searchMand s = some (g, restoreSegOf b) →
      parse_report_line s ts = .ok (some (mkReport g ts d none (some vb)))) ∧
    (searchMand s = some (g, initSegOf a ++ restoreSegOf b) →
      parse_report_line s ts = .ok (some (mkReport g ts d (some va) (some vb)))) ∧
    (searchMand s = some (g, restoreSegOf b ++ initSegOf a) →
      parse_report_line s ts = .ok (some (mkReport g ts d none (some vb)))) := by
  refine ⟨fun hs => ?_, fun hs => ?_, fun hs => ?_, fun hs => ?_⟩
  · exact parse_line_config s ts g _ _ _ d _ _ hs (matchOpts_initSeg ha hall) hd
      (by simp [optFloat, hfa]) (by simp [optFloat])
  · exact parse_line_config s ts g _ _ _ d _ _ hs (matchOpts_restoreSeg hb hball) hd
      (by simp [optFloat]) (by simp [optFloat, hfb])
  · exact parse_line_config s ts g _ _ _ d _ _ hs (matchOpts_initRestore ha hall hb hball) hd
      (by simp [optFloat, hfa]) (by simp [optFloat, hfb])
  · exact parse_line_config s ts g _ _ _ d _ _ hs (matchOpts_restoreInit hb hball) hd
      (by simp [optFloat]) (by simp [optFloat, hfb])

/-- C5 counterexample: on a matching line carrying both optional fields in
the order restore-then-init, the parse succeeds but `init_duration_ms` is
absent rather than the value present in the line. -/
theorem parse_restore_then_init_drops_init :
    (okReport (parse_report_line
        (mandLine ++ restoreSegOf (("100.5").toList) ++ initSegOf (("234.56").toList)) 0)).map
      (fun r => (r.init_duration_ms, r.restore_duration_ms.isSome)) = some (none, true) := rfl

theorem parser_optional_field_configurations_witness :
    parse_report_line
        (mandLine ++ (initSegOf (("234.56").toList) ++ restoreSegOf (("100.5").toList))) 0
      = .ok (some (mkReport
          ⟨("abc-123").toList, ("45.67").toList, ("46").toList, ("512").toList, ("128").toList⟩
          0 ((4567 : ℚ)/100) (some ((5864 : ℚ)/25)) (some ((201 : ℚ)/2)))) := by
  refine (parser_optional_field_configurations _ 0 _ (("234.56").toList) (("100.5").toList)
    _ _ _ (by decide) (by decide) (by decide) (by decide) ?_ ?_ ?_).2.2.1 (by rfl)
  · simp [pyFloatQ, digitsValQ, pyIntNat, digitVal, List.count, List.countP, List.countP.go]
    norm_num
  · simp [pyFloatQ, digitsValQ, pyIntNat, digitVal, List.count, List.countP, List.countP.go]
    norm_num
  · simp [pyFloatQ, digitsValQ, pyIntNat, digitVal, List.count, List.countP, List.countP.go]
    norm_num

/-- C10: a parse raises only when a captured numeric group fails
conversion; trailing optional-field text that does not match the optional
sub-pattern (wrong value text such as `abc`, or `12,5` whose capture stops
at the comma and then misses `ms`) leaves the field absent without
failing. -/
theorem parse_errors_only_from_captured_groups :
    (∀ (s : List Char) (ts : ℤ), parse_report_line s ts = .error () →
      ∃ g rest, searchMand s = some (g, rest) ∧
        (pyFloatQ g.duration = none ∨
          (∃ c, (matchOpts rest).1 = some c ∧ pyFloatQ c = none) ∨
          (∃ c, (matchOpts rest).2 = some c ∧ pyFloatQ c = none))) ∧
    (okReport (parse_report_line (mandLine ++ (" Init Duration: abc ms").toList) 0)).map
      (fun r => (r.init_duration_ms, r.is_cold_start)) = some (none, false) ∧
    (okReport (parse_report_line (mandLine ++ (" Init Duration: 12,5 ms").toList) 0)).map
      (fun r => (r.init_duration_ms, r.is_cold_start)) = some (none, false) := by
  refine ⟨?_, rfl, rfl⟩
  intro s ts h
  rcases hsm : searchMand s with _ | ⟨g, rest⟩
  · simp only [parse_report_line, hsm] at h
    exact Except.noConfusion h
  · refine ⟨g, rest, rfl, ?_⟩
    rcases hd : pyFloatQ g.duration with _ | d
    · exact Or.inl rfl
    · rcases h1 : optFloat (matchOpts rest).1 with _ | oi
      · exact Or.inr (Or.inl (optFloat_eq_none.mp h1))
      · rcases h2 : optFloat (matchOpts rest).2 with _ | orr
        · exact Or.inr (Or.inr (optFloat_eq_none.mp h2))
        · exfalso
          simp only [parse_report_line, hsm, hd, h1, h2] at h
          exact Except.noConfusion h

theorem parse_errors_witness :
    ∃ g rest, searchMand badDurationLine = some (g, rest) ∧
      (pyFloatQ g.duration = none ∨
        (∃ c, (matchOpts rest).1 = some c ∧ pyFloatQ c = none) ∨
        (∃ c, (matchOpts rest).2 = some c ∧ pyFloatQ c = none)) :=
  parse_errors_only_from_captured_groups.1 badDurationLine 0 rfl

/-- C6: batch parsing returns the successfully parsed reports in input
order, silently dropping lines with no match, while a matching line whose
duration text fails `float` conversion aborts the batch with the raised
error. -/
theorem parse_lines_skip_and_propagate :
    (∀ events : List (List Char × ℤ),
        (∀ e ∈ events, parse_report_line e.1 e.2 ≠ .error ()) →
        parse_report_lines events
          = .ok (events.filterMap (fun e => okReport (parse_report_line e.1 e.2)))) ∧
    parse_report_lines [(mandLine, 0), (badDurationLine, 1)] = .error () := by
  constructor
  · intro events
    induction events with
    | nil => intro _; rfl
    | cons e rest ih =>
      intro h
      obtain ⟨m, t⟩ := e
      have he : parse_report_line m t ≠ .error () := h (m, t) (by simp)
      have hrest := ih (fun e hmem => h e (by simp [hmem]))
      rcases hpe : parse_report_line m t with u | r
      · cases u
        exact absurd hpe he
      · cases r with
        | none =>
          simp [parse_report_lines, hpe, hrest, List.filterMap_cons, okReport,
            bind, Except.bind]
        | some rep =>
          simp [parse_report_lines, hpe, hrest, List.filterMap_cons, okReport,
            bind, Except.bind]
  · rfl

theorem parse_lines_witness :
    parse_report_lines [(noMatchLine, 5), (mandLine, 0)]
      = .ok ([(noMatchLine, 5), (mandLine, 0)].filterMap
          (fun e => okReport (parse_report_line e.1 e.2))) :=
  parse_lines_skip_and_propagate.1 [(noMatchLine, 5), (mandLine, 0)]
    (by decide)

/-! ### C3: Cohen's d -/

/-- C3 counterexample: at `n1 = n2 = 1` with a non-zero standard deviation,
`calculate_cohens_d` raises `ZeroDivisionError` (the pooled-variance
denominator is the integer 0), while the claim — whose formula there reads
`sqrt (0 / 0) = 0` — demands the value 0. -/
theorem cohens_d_raises_on_two_singletons :
    calculate_cohens_d 0 1 1 0 0 1 = none ∧ cohensDClaim 0 1 1 0 0 1 = .val 0 := by
  constructor
  · unfold calculate_cohens_d
    norm_num
  · unfold cohensDClaim
    norm_num

/-- C3 (amended): `calculate_cohens_d` computes exactly the claimed
branches — 0 when a sample size is 0; for two zero deviations 0 or ±∞ by
mean comparison; else `(mean2-mean1)/pooled` with a pooled-std-0 guard and
no `NaN` (the codomain has no `NaN` value) — except that at
`n1 = n2 = 1` with deviations not both zero it raises `ZeroDivisionError`
instead of returning. -/
theorem cohens_d_branch_characterization (m1 s1 : ℝ) (n1 : ℕ) (m2 s2 : ℝ) (n2 : ℕ) :
    (n1 = 1 ∧ n2 = 1 ∧ ¬(s1 = 0 ∧ s2 = 0) →
      calculate_cohens_d m1 s1 n1 m2 s2 n2 = none) ∧
    (¬(n1 = 1 ∧ n2 = 1 ∧ ¬(s1 = 0 ∧ s2 = 0)) →
      calculate_cohens_d m1 s1 n1 m2 s2 n2 = some (cohensDClaim m1 s1 n1 m2 s2 n2)) := by
  constructor
  · rintro ⟨rfl, rfl, hstd⟩
    unfold calculate_cohens_d
    norm_num [hstd]
  · intro hne
    unfold calculate_cohens_d cohensDClaim
    by_cases h0 : n1 = 0 ∨ n2 = 0
    · simp [h0]
    · push_neg at h0
      by_cases hstd : s1 = 0 ∧ s2 = 0
      · simp only [h0.1, h0.2, hstd, if_true, if_false, or_self, ite_false, ite_true,
          and_self, or_false, false_or]
        simp [h0.1, h0.2]
        split_ifs <;> rfl
      · have hn12 : ¬(n1 = 1 ∧ n2 = 1) := fun h => hne ⟨h.1, h.2, hstd⟩
        have hden : ¬((n1 : ℤ) + n2 - 2 = 0) := by
          omega
        simp [h0.1, h0.2, hstd, hden]
        split_ifs <;> rfl

theorem cohens_d_branch_witness :
    calculate_cohens_d 0 1 2 5 1 2 = some (cohensDClaim 0 1 2 5 1 2) :=
  (cohens_d_branch_characterization 0 1 2 5 1 2).2 (by norm_num)

/-! ### C4: overlap percentage -/

theorem overlap_eq_100_general {m1 s1 m2 s2 : ℝ} (hs1 : 0 < s1) (hs2 : 0 < s2) :
    (calculate_overlap_percent m1 s1 m2 s2 = 100 ↔ m1 = m2) := by
  have h1 : s1 ≠ 0 := ne_of_gt hs1
  have h2 : s2 ≠ 0 := ne_of_gt hs2
  have hcpos : 0 < Real.sqrt ((s1 ^ 2 + s2 ^ 2) / 2) := Real.sqrt_pos.mpr (by positivity)
  unfold calculate_overlap_percent
  rw [if_neg (by tauto : ¬(s1 = 0 ∧ s2 = 0)), if_neg (by tauto : ¬(s1 = 0 ∨ s2 = 0))]
  simp only []
  rw [if_neg hcpos.ne']
  set C := Real.sqrt ((s1 ^ 2 + s2 ^ 2) / 2) with hCdef
  set z := |m1 - m2| / C with hzdef
  set E := Real.exp (1.7 * z / 2) with hEdef
  have hz : 0 ≤ z := div_nonneg (abs_nonneg _) hcpos.le
  have hE1 : 1 ≤ E := by
    rw [hEdef]
    exact Real.one_le_exp_iff.mpr (by linarith)
  have h1E : 0 < 1 + E := by linarith
  have hval : 2 * (1 / (1 + E)) * 100 = 200 / (1 + E) := by ring
  have hle100 : 200 / (1 + E) ≤ 100 := by
    rw [div_le_iff₀ h1E]
    linarith
  have hpos' : 0 < 200 / (1 + E) := by positivity
  rw [hval, max_eq_right hpos'.le, min_eq_right hle100, div_eq_iff h1E.ne']
  constructor
  · intro h
    have hE : Real.exp (1.7 * z / 2) = 1 := by
      rw [← hEdef]
      linarith
    have hz0 : 1.7 * z / 2 = 0 := (Real.exp_eq_one_iff _).mp hE
    have hzz : z = 0 := by linarith
    rw [hzdef, div_eq_zero_iff] at hzz
    rcases hzz with hzz | hzz
    · exact sub_eq_zero.mp (abs_eq_zero.mp hzz)
    · exact absurd hzz hcpos.ne'
  · intro h
    have hzz : z = 0 := by
      rw [hzdef, h]
      simp
    have : E = 1 := by
      rw [hEdef, hzz]
      norm_num
    linarith

/-- C4 counterexample: `calculate_overlap_percent 0 1 0 1 = 100` although
the standard deviations are 1, not 0 — so 100 is not returned only in the
degenerate equal-point case. -/
theorem overlap_100_with_nonzero_stds :
    calculate_overlap_percent 0 1 0 1 = 100 ∧ (1 : ℝ) ≠ 0 := by
  refine ⟨?_, one_ne_zero⟩
  unfold calculate_overlap_percent
  norm_num

/-- C4 (amended): `calculate_overlap_percent` is symmetric under swapping
the two samples, and returns 100 exactly when the means are equal and the
standard deviations are both zero or both non-zero (a point mass against a
spread distribution gives the fixed value 50, and two equal-mean normal
distributions overlap fully under the logistic approximation). -/
theorem overlap_symmetry_and_100_iff (m1 s1 m2 s2 : ℝ) (hs1 : 0 ≤ s1) (hs2 : 0 ≤ s2) :
    calculate_overlap_percent m1 s1 m2 s2 = calculate_overlap_percent m2 s2 m1 s1 ∧
    (calculate_overlap_percent m1 s1 m2 s2 = 100 ↔ (m1 = m2 ∧ (s1 = 0 ↔ s2 = 0))) := by
  constructor
  · unfold calculate_overlap_percent
    by_cases h1 : s1 = 0 <;> by_cases h2 : s2 = 0
    · by_cases hm : m1 = m2
      · subst hm
        simp [h1, h2]
      · simp only [h1, h2, and_self, if_true, if_pos]
        rw [if_neg hm, if_neg (fun h : m2 = m1 => hm h.symm)]
    · simp [h1, h2]
    · simp [h1, h2]
    · simp only [h1, h2, and_false, false_and, if_false, or_self, or_false, false_or,
        ite_false]
      rw [abs_sub_comm, add_comm (s1 ^ 2) (s2 ^ 2)]
  · rcases eq_or_lt_of_le hs1 with h1 | h1
    · rcases eq_or_lt_of_le hs2 with h2 | h2
      · -- both standard deviations zero
        unfold calculate_overlap_percent
        rw [if_pos ⟨h1.symm, h2.symm⟩]
        by_cases hm : m1 = m2
        · rw [if_pos hm]
          simp [hm, ← h1, ← h2]
        · rw [if_neg hm]
          constructor
          · intro h
            norm_num at h
          · rintro ⟨h, -⟩
            exact absurd h hm
      · -- s1 = 0, s2 > 0
        unfold calculate_overlap_percent
        rw [if_neg (fun h => h2.ne' h.2), if_pos (Or.inl h1.symm)]
        constructor
        · intro h
          norm_num at h
        · rintro ⟨-, hiff⟩
          exact absurd (hiff.mp h1.symm) h2.ne'
    · rcases eq_or_lt_of_le hs2 with h2 | h2
      · -- s1 > 0, s2 = 0
        unfold calculate_overlap_percent
        rw [if_neg (fun h => h1.ne' h.1), if_pos (Or.inr h2.symm)]
        constructor
        · intro h
          norm_num at h
        · rintro ⟨-, hiff⟩
          exact absurd (hiff.mpr h2.symm) h1.ne'
      · -- both positive
        rw [overlap_eq_100_general h1 h2]
        have hiff : (s1 = 0 ↔ s2 = 0) :=
          ⟨fun h => absurd h h1.ne', fun h => absurd h h2.ne'⟩
        simp [hiff]

theorem overlap_symmetry_witness :
    calculate_overlap_percent 1 2 3 4 = calculate_overlap_percent 3 4 1 2 ∧
    (calculate_overlap_percent 1 2 3 4 = 100 ↔ ((1 : ℝ) = 3 ∧ ((2 : ℝ) = 0 ↔ (4 : ℝ) = 0))) :=
  overlap_symmetry_and_100_iff 1 2 3 4 (by norm_num) (by norm_num)

/-! ### C7, C8: aggregation layer -/

theorem calculate_distribution_stats_eq_none {l : List ℝ} :
    calculate_distribution_stats l = none ↔ l = [] := by
  unfold calculate_distribution_stats
  split_ifs with h
  · simp [h]
  · simp [h]

theorem compare_distributions_empty_left (a : List ℝ) :
    compare_distributions [] a = .ok none := by
  have h : calculate_distribution_stats ([] : List ℝ) = none :=
    calculate_distribution_stats_eq_none.mpr rfl
  unfold compare_distributions
  rw [h]
  rcases ha : calculate_distribution_stats a with _ | as_ <;> rfl

theorem compare_distributions_empty_right (b : List ℝ) :
    compare_distributions b [] = .ok none := by
  have h : calculate_distribution_stats ([] : List ℝ) = none :=
    calculate_distribution_stats_eq_none.mpr rfl
  unfold compare_distributions
  rw [h]
  rcases hb : calculate_distribution_stats b with _ | bs <;> rfl

/-- C7: when either side of a before/after comparison has no records, all
three per-metric comparisons are the neutral placeholder
(`cohens_d = 0`, `overlap_percent = 100`, zero-valued stats on both sides)
and the operation returns a result rather than failing. -/
theorem compare_reports_empty_side_neutral (fn : List Char)
    (br ar : List InvocationReport) (pt bs ae : ℤ) (h : br = [] ∨ ar = []) :
    ∃ res, compare_reports fn br ar pt bs ae = .ok res ∧
      res.duration = empty_comparison ∧ res.billed_duration = empty_comparison ∧
      res.memory_used = empty_comparison := by
  rcases h with rfl | rfl
  · simp only [compare_reports, durationsOf, billedOf, memoryOf, List.map_nil,
      compare_distributions_empty_left, bind, Except.bind]
    exact ⟨_, rfl, rfl, rfl, rfl⟩
  · simp only [compare_reports, durationsOf, billedOf, memoryOf, List.map_nil,
      compare_distributions_empty_right, bind, Except.bind]
    exact ⟨_, rfl, rfl, rfl, rfl⟩

theorem compare_reports_empty_witness :
    ∃ res, compare_reports [] [] [] 0 0 0 = .ok res ∧
      res.duration = empty_comparison ∧ res.billed_duration = empty_comparison ∧
      res.memory_used = empty_comparison :=
  compare_reports_empty_side_neutral [] [] [] 0 0 0 (Or.inl rfl)

/-- C8: in single-period analysis the three primary metric stats are the
zero-valued placeholder when there are no records (the fields are total,
never absent), the cold-start / snapstart duration stats are absent exactly
when there are no cold starts / restores, and each rate is count over
total, with 0 when the total is 0. -/
theorem analyze_reports_empty_and_optional_conventions
    (fn : List Char) (reports : List InvocationReport) (st et : ℤ) :
    (reports = [] →
      (analyze_reports fn reports st et).duration_stats = zeroStats ∧
      (analyze_reports fn reports st et).billed_duration_stats = zeroStats ∧
      (analyze_reports fn reports st et).memory_used_stats = zeroStats) ∧
    ((analyze_reports fn reports st et).cold_start_duration_stats = none ↔
      reports.filter (fun r => r.is_cold_start) = []) ∧
    ((analyze_reports fn reports st et).snapstart_restore_duration_stats = none ↔
      reports.filter (fun r => r.is_snapstart_restore) = []) ∧
    (analyze_reports fn reports st et).cold_start_count
      = (reports.filter (fun r => r.is_cold_start)).length ∧
    (analyze_reports fn reports st et).cold_start_rate =
      (if reports.length = 0 then 0 else
        (((reports.filter (fun r => r.is_cold_start)).length : ℝ) / reports.length)) ∧
    (analyze_reports fn reports st et).snapstart_restore_rate =
      (if reports.length = 0 then 0 else
        (((reports.filter (fun r => r.is_snapstart_restore)).length : ℝ) / reports.length)) := by
  refine ⟨?_, ?_, ?_, ?_, ?_, ?_⟩
  · rintro rfl
    refine ⟨?_, ?_, ?_⟩ <;>
      simp [analyze_reports, durationsOf, billedOf, memoryOf,
        calculate_distribution_stats_eq_none.mpr rfl]
  · simp [analyze_reports, calculate_distribution_stats_eq_none]
  · simp [analyze_reports, calculate_distribution_stats_eq_none]
  · rfl
  · simp only [analyze_reports]
    by_cases h : reports.length = 0
    · simp [h]
    · simp [h, Nat.pos_of_ne_zero h]
  · simp only [analyze_reports]
    by_cases h : reports.length = 0
    · simp [h]
    · simp [h, Nat.pos_of_ne_zero h]

theorem analyze_reports_witness :
    ((([] : List InvocationReport) = [] →
      (analyze_reports [] [] 0 0).duration_stats = zeroStats ∧
      (analyze_reports [] [] 0 0).billed_duration_stats = zeroStats ∧
      (analyze_reports [] [] 0 0).memory_used_stats = zeroStats) ∧
    ((analyze_reports [] [] 0 0).cold_start_duration_stats = none ↔
      ([] : List InvocationReport).filter (fun r => r.is_cold_start) = []) ∧
    ((analyze_reports [] [] 0 0).snapstart_restore_duration_stats = none ↔
      ([] : List InvocationReport).filter (fun r => r.is_snapstart_restore) = []) ∧
    (analyze_reports [] [] 0 0).cold_start_count
      = (([] : List InvocationReport).filter (fun r => r.is_cold_start)).length ∧
    (analyze_reports [] [] 0 0).cold_start_rate =
      (if ([] : List InvocationReport).length = 0 then 0 else
        (((([] : List InvocationReport).filter (fun r => r.is_cold_start)).length : ℝ)
          / ([] : List InvocationReport).length)) ∧
    (analyze_reports [] [] 0 0).snapstart_restore_rate =
      (if ([] : List InvocationReport).length = 0 then 0 else
        (((([] : List InvocationReport).filter (fun r => r.is_snapstart_restore)).length : ℝ)
          / ([] : List InvocationReport).length))) :=
  analyze_reports_empty_and_optional_conventions [] [] 0 0

/-! ### C1, C2: distribution engine -/

theorem pySorted_ne_nil {values : List ℝ} (hv : values ≠ []) : pySorted values ≠ [] := by
  intro h
  apply hv
  have hperm := List.perm_insertionSort (α := ℝ) (· ≤ ·) values
  rw [pySorted] at h
  rw [h] at hperm
  exact (hperm.symm).eq_nil

theorem pySorted_perm (values : List ℝ) : (pySorted values).Perm values :=
  List.perm_insertionSort (· ≤ ·) values

/-- `calculate_percentile` computes the claimed closed-form rule for any
non-negative percentile (`int` truncation and `⌊·⌋` agree there). -/
theorem calculate_percentile_eq_spec {l : List ℝ} (hl : l ≠ []) {p : ℝ} (hp : 0 ≤ p) :
    calculate_percentile l p = percentileSpec l p := by
  unfold calculate_percentile percentileSpec
  rw [if_neg hl]
  by_cases h1 : l.length = 1
  · simp [h1]
  · simp only [h1, if_false]
    have hn : 1 ≤ l.length := List.length_pos.mpr hl
    set r := p / 100 * ((l.length : ℝ) - 1) with hrdef
    have hrank : 0 ≤ r := by
      apply mul_nonneg (div_nonneg hp (by norm_num))
      have h1r : (1 : ℝ) ≤ l.length := by exact_mod_cast hn
      linarith
    have hfnn : 0 ≤ ⌊r⌋ := Int.floor_nonneg.mpr hrank
    have hcast : ((⌊r⌋₊ : ℤ)) = ⌊r⌋ := by
      rw [← Int.floor_toNat, Int.toNat_of_nonneg hfnn]
    rw [← hcast]
    split_ifs with hA hB hB
    · rfl
    · exfalso
      apply hB
      exact_mod_cast hA
    · exfalso
      apply hA
      exact_mod_cast hB
    · rw [Int.toNat_natCast]
      push_cast
      ring_nf

/-- C1: the four percentile fields the Distribution Engine puts in
`DistributionStats` follow exactly the claimed interpolation rule over the
ascending-sorted copy of the input. -/
theorem percentile_engine_follows_interpolation_rule (values : List ℝ) (hv : values ≠ []) :
    (distStats values).p50 = percentileSpec (pySorted values) 50 ∧
    (distStats values).p90 = percentileSpec (pySorted values) 90 ∧
    (distStats values).p95 = percentileSpec (pySorted values) 95 ∧
    (distStats values).p99 = percentileSpec (pySorted values) 99 := by
  have hs := pySorted_ne_nil hv
  refine ⟨?_, ?_, ?_, ?_⟩ <;>
    · simp only [distStats]
      exact calculate_percentile_eq_spec hs (by norm_num)

theorem percentile_rule_witness :
    (distStats [1, 2]).p50 = percentileSpec (pySorted [1, 2]) 50 ∧
    (distStats [1, 2]).p90 = percentileSpec (pySorted [1, 2]) 90 ∧
    (distStats [1, 2]).p95 = percentileSpec (pySorted [1, 2]) 95 ∧
    (distStats [1, 2]).p99 = percentileSpec (pySorted [1, 2]) 99 :=
  percentile_engine_follows_interpolation_rule [1, 2] (List.cons_ne_nil 1 [2])

/-- C2: the `std_dev` field is 0 for a one-element list and otherwise the
sample standard deviation with Bessel's correction, computed over the
original values (sorting does not change sums or the mean). -/
theorem std_dev_is_bessel_sample_stdev (values : List ℝ) (hv : values ≠ []) :
    (distStats values).std_dev =
      if values.length = 1 then 0 else sampleStdDevSpec values := by
  have hperm := pySorted_perm values
  have hlen : (pySorted values).length = values.length := hperm.length_eq
  have hsum : (pySorted values).sum = values.sum := hperm.sum_eq
  simp only [distStats]
  rw [hlen]
  split_ifs with h
  · rfl
  · unfold stdevR sampleStdDevSpec meanR
    rw [hlen, hsum]
    congr 2
    exact (hperm.map _).sum_eq

theorem std_dev_witness :
    (distStats [1, 2]).std_dev =
      if ([1, 2] : List ℝ).length = 1 then 0 else sampleStdDevSpec [1, 2] :=
  std_dev_is_bessel_sample_stdev [1, 2] (List.cons_ne_nil 1 [2])

/-! ### C9: percentile ordering -/

theorem getD_sorted_mono {l : List ℝ} (hs : l.Sorted (· ≤ ·)) {i j : ℕ}
    (hij : i ≤ j) (hj : j < l.length) : l.getD i 0 ≤ l.getD j 0 := by
  have hi : i < l.length := lt_of_le_of_lt hij hj
  rw [List.getD_eq_getElem l 0 hi, List.getD_eq_getElem l 0 hj]
  have h := hs.rel_get_of_le (a := ⟨i, hi⟩) (b := ⟨j, hj⟩) hij
  simpa [List.get_eq_getElem] using h

theorem rank_nonneg {n : ℕ} (hn : 1 ≤ n) {p : ℝ} (hp : 0 ≤ p) :
    0 ≤ p / 100 * ((n : ℝ) - 1) := by
  apply mul_nonneg (div_nonneg hp (by norm_num))
  have h1r : (1 : ℝ) ≤ n := by exact_mod_cast hn
  linarith

theorem calculate_percentile_bounds {l : List ℝ} (hs : l.Sorted (· ≤ ·)) (hl : l ≠ [])
    {p : ℝ} (hp : 0 ≤ p) :
    l.getD 0 0 ≤ calculate_percentile l p ∧
    calculate_percentile l p ≤ l.getD (l.length - 1) 0 := by
  unfold calculate_percentile
  rw [if_neg hl]
  by_cases h1 : l.length = 1
  · simp [h1]
  · simp only [h1, if_false]
    have hn1 : 1 ≤ l.length := List.length_pos.mpr hl
    have hn2 : 2 ≤ l.length := by omega
    set r := p / 100 * ((l.length : ℝ) - 1) with hrdef
    have hrank : 0 ≤ r := rank_nonneg hn1 hp
    set lo := ⌊r⌋₊ with hlodef
    have hfr0 : 0 ≤ r - (lo : ℝ) := by
      have h := Nat.floor_le hrank
      rw [← hlodef] at h
      linarith
    have hfr1 : r - (lo : ℝ) ≤ 1 := by
      have h := Nat.lt_floor_add_one r
      rw [← hlodef] at h
      linarith
    split_ifs with hA
    · exact ⟨getD_sorted_mono hs (Nat.zero_le _) (by omega), le_refl _⟩
    · have hlt : lo + 1 < l.length := by omega
      have hcell : l.getD lo 0 ≤ l.getD (lo + 1) 0 :=
        getD_sorted_mono hs (Nat.le_succ lo) hlt
      constructor
      · have h0lo : l.getD 0 0 ≤ l.getD lo 0 :=
          getD_sorted_mono hs (Nat.zero_le _) (by omega)
        nlinarith [mul_nonneg hfr0 (sub_nonneg.mpr hcell)]
      · have hhi : l.getD (lo + 1) 0 ≤ l.getD (l.length - 1) 0 :=
          getD_sorted_mono hs (by omega) (by omega)
        nlinarith [mul_le_of_le_one_left (sub_nonneg.mpr hcell) hfr1]

theorem calculate_percentile_mono {l : List ℝ} (hs : l.Sorted (· ≤ ·)) (hl : l ≠ [])
    {p q : ℝ} (hp : 0 ≤ p) (hpq : p ≤ q) :
    calculate_percentile l p ≤ calculate_percentile l q := by
  unfold calculate_percentile
  rw [if_neg hl, if_neg hl]
  by_cases h1 : l.length = 1
  · simp [h1]
  · simp only [h1, if_false]
    have hn1 : 1 ≤ l.length := List.length_pos.mpr hl
    have hq : 0 ≤ q := le_trans hp hpq
    set r := p / 100 * ((l.length : ℝ) - 1) with hrdef
    set s := q / 100 * ((l.length : ℝ) - 1) with hsdef
    have hrs : r ≤ s := by
      apply mul_le_mul_of_nonneg_right _ _
      · exact (div_le_div_iff_of_pos_right (by norm_num : (0:ℝ) < 100)).mpr hpq
      · have h1r : (1 : ℝ) ≤ l.length := by exact_mod_cast hn1
        linarith
    have hrank_r : 0 ≤ r := rank_nonneg hn1 hp
    have hrank_s : 0 ≤ s := rank_nonneg hn1 hq
    set lor := ⌊r⌋₊ with hlordef
    set los := ⌊s⌋₊ with hlosdef
    have hflo : lor ≤ los := Nat.floor_le_floor hrs
    have hfr0 : 0 ≤ r - (lor : ℝ) := by
      have h := Nat.floor_le hrank_r
      rw [← hlordef] at h
      linarith
    have hfr1 : r - (lor : ℝ) ≤ 1 := by
      have h := Nat.lt_floor_add_one r
      rw [← hlordef] at h
      linarith
    have hfs0 : 0 ≤ s - (los : ℝ) := by
      have h := Nat.floor_le hrank_s
      rw [← hlosdef] at h
      linarith
    split_ifs with hA hB hB
    · exact le_refl _
    · exact absurd (by omega : l.length ≤ los + 1) hB
    · -- interpolated value at r, clamped value at s
      have hlt : lor + 1 < l.length := by omega
      have hcell : l.getD lor 0 ≤ l.getD (lor + 1) 0 :=
        getD_sorted_mono hs (Nat.le_succ lor) hlt
      have hhi : l.getD (lor + 1) 0 ≤ l.getD (l.length - 1) 0 :=
        getD_sorted_mono hs (by omega) (by omega)
      nlinarith [mul_le_of_le_one_left (sub_nonneg.mpr hcell) hfr1]
    · -- both interpolated
      have hltr : lor + 1 < l.length := by omega
      have hlts : los + 1 < l.length := by omega
      have hcellr : l.getD lor 0 ≤ l.getD (lor + 1) 0 :=
        getD_sorted_mono hs (Nat.le_succ lor) hltr
      have hcells : l.getD los 0 ≤ l.getD (los + 1) 0 :=
        getD_sorted_mono hs (Nat.le_succ los) hlts
      rcases eq_or_lt_of_le hflo with heq | hlt
      · -- same cell: the fraction grows with the rank
        rw [← heq]
        have hfrs : r - (lor : ℝ) ≤ s - (lor : ℝ) := by linarith
        have hres : s - (los : ℝ) = s - (lor : ℝ) := by rw [← heq]
        nlinarith [mul_le_mul_of_nonneg_right hfrs (sub_nonneg.mpr hcellr),
          heq ▸ hcellr]
      · -- the rank moved to a later cell
        have hmid : l.getD (lor + 1) 0 ≤ l.getD los 0 :=
          getD_sorted_mono hs (by omega) (by omega)
        nlinarith [mul_le_of_le_one_left (sub_nonneg.mpr hcellr) hfr1,
          mul_nonneg hfs0 (sub_nonneg.mpr hcells)]

/-- C9: in every non-empty summary the percentile fields are ordered:
`min ≤ p50 ≤ max` and `p50 ≤ p90 ≤ p95 ≤ p99` (and this summary is
exactly what the engine returns for non-empty input). -/
theorem stats_percentile_ordering (values : List ℝ) (hv : values ≠ []) :
    calculate_distribution_stats values = some (distStats values) ∧
    (distStats values).min ≤ (distStats values).p50 ∧
    (distStats values).p50 ≤ (distStats values).max ∧
    (distStats values).p50 ≤ (distStats values).p90 ∧
    (distStats values).p90 ≤ (distStats values).p95 ∧
    (distStats values).p95 ≤ (distStats values).p99 := by
  have hs : (pySorted values).Sorted (· ≤ ·) := List.sorted_insertionSort _ _
  have hne := pySorted_ne_nil hv
  refine ⟨by simp [calculate_distribution_stats, hv], ?_, ?_, ?_, ?_, ?_⟩ <;>
    simp only [distStats]
  · exact (calculate_percentile_bounds hs hne (by norm_num)).1
  · exact (calculate_percentile_bounds hs hne (by norm_num)).2
  · exact calculate_percentile_mono hs hne (by norm_num) (by norm_num)
  · exact calculate_percentile_mono hs hne (by norm_num) (by norm_num)
  · exact calculate_percentile_mono hs hne (by norm_num) (by norm_num)

theorem percentile_ordering_witness :
    calculate_distribution_stats [1, 2] = some (distStats [1, 2]) ∧
    (distStats [1, 2]).min ≤ (distStats [1, 2]).p50 ∧
    (distStats [1, 2]).p50 ≤ (distStats [1, 2]).max ∧
    (distStats [1, 2]).p50 ≤ (distStats [1, 2]).p90 ∧
    (distStats [1, 2]).p90 ≤ (distStats [1, 2]).p95 ∧
    (distStats [1, 2]).p95 ≤ (distStats [1, 2]).p99 :=
  stats_percentile_ordering [1, 2] (List.cons_ne_nil 1 [2])
